import Mathlib

/-
Verification of the lazy-evaluation module (src/lazy-evaluation/lazy.ts and
the exercise solutions file).

The source represents a lazy list as a thunk:

  type Lazy<T>     = () => T
  type LazyList<T> = Lazy<{ head: Lazy<T>, tail: LazyList<T> } | null>

All thunks in the source are pure closures over immutable data (no mutation,
no memoization), so forcing a given LazyList reference is a mathematical
function of the reference alone.  We therefore embed a LazyList by the
outcomes of forcing it along its tail chain: `xs k` is the outcome of forcing
the list obtained from `xs` by descending `k` tails (forcing each intermediate
tail in turn).  Forcing may yield `null`, a node, diverge (an infinite loop in
the thunk body, like the source file's `bottom`), or throw (e.g. the runtime
TypeError raised by dereferencing a forced `null` through the erased
non-null assertion `!`).  A node carries the behavior of its head thunk:
`some v` when forcing the head yields `v`, `none` when the head thunk itself
diverges or errors.
-/

namespace VFP

/-- Outcome of invoking a LazyList thunk once. -/
inductive ForceResult (T : Type) where
  /-- The thunk returned `null` (end of sequence). -/
  | nil : ForceResult T
  /-- The thunk returned a node `{ head, tail }`; `head` is the behavior of
  the (unforced) head thunk: `some v` if forcing it yields `v`, `none` if it
  diverges or errors. -/
  | node (head : Option T) : ForceResult T
  /-- The thunk body diverges (never returns). -/
  | bot : ForceResult T
  /-- The thunk body throws (e.g. TypeError from a null dereference). -/
  | fail : ForceResult T
deriving DecidableEq, Repr

/-- A LazyList, given by the outcome of forcing it after descending `k` tails.
Depths past a `nil`, `bot` or `fail` outcome are operationally unreachable
(there is no tail to descend into); their values are irrelevant junk. -/
abbrev LazyList (T : Type) := Nat → ForceResult T

/-- The tail of a list whose forcing yielded a node: source field access
`xs()!.tail`.  Forcing the tail after descending `j` tails is forcing `xs`
after descending `j + 1` tails. -/
def tail {T : Type} (xs : LazyList T) : LazyList T := fun j => xs (j + 1)

/-- Iterated `tail`: descend `k` tails. -/
def tailN {T : Type} : Nat → LazyList T → LazyList T
  | 0, xs => xs
  | k + 1, xs => tailN k (tail xs)

/-- Source `range` (exercise solution, lines 11-13):

  function range(start: number): LazyList<number> {
    return () => ({ head: () => start, tail: range(start + 1) });
  }

Forcing yields a node whose head thunk returns `start` and whose tail is
`range(start + 1)`; hence at depth `k + 1` the behavior is that of
`range(start + 1)` at depth `k`. -/
def range (start : Int) : LazyList Int := fun k =>
  match k with
  | 0 => ForceResult.node (some start)
  | k + 1 => range (start + 1) k

/-- Source `take` (exercise solution, lines 19-23):

  function take<T>(n: number, xs: LazyList<T>): LazyList<T> {
    return () => {
      return n === 0 ? null : ({head: xs()!.head, tail: take(n - 1, xs()!.tail)});
    };
  }

The claims only concern `n >= 0`, so `n : Nat`.  Forcing the returned thunk:
if `n === 0` it returns `null` without touching `xs`; otherwise it invokes
`xs()` and passes the node's head thunk through unforced.  When `xs()`
returns `null`, the erased assertion `!` does not protect the field access
`null.head`, which throws a TypeError (`fail`); when `xs()` itself diverges
or throws, so does the body.  The node's tail is `take (n - 1)` of the forced
node's tail, i.e. at depth `k + 1` the behavior of `take (n - 1) (tail xs)`
at depth `k`. -/
def take {T : Type} (n : Nat) (xs : LazyList T) : LazyList T := fun k =>
  match n with
  | 0 => ForceResult.nil
  | n + 1 =>
    match k with
    | 0 =>
      match xs 0 with
      | ForceResult.node h => ForceResult.node h
      | ForceResult.nil => ForceResult.fail
      | ForceResult.bot => ForceResult.bot
      | ForceResult.fail => ForceResult.fail
    | k + 1 => take n (tail xs) k

/-- Source `toLazyList` (lazy.ts lines 115-122):

  function toLazyList<T>(xs: T[]): LazyList<T> {
    return () => {
      return xs.length === 0 ? null : ({
          head: () => xs[0],
          tail: toLazyList(xs.slice(1))
        })
    };
  }

Forcing yields `null` on the empty array, otherwise a node with head thunk
returning `xs[0]` and tail `toLazyList (xs.slice 1)`. -/
def toLazyList {T : Type} (xs : List T) : LazyList T := fun k =>
  match k with
  | 0 =>
    match xs with
    | [] => ForceResult.nil
    | x :: _ => ForceResult.node (some x)
  | k + 1 => toLazyList xs.tail k

/-- Outcome of running the source's drain loop to completion. -/
inductive Drained (T : Type) where
  /-- The loop exited normally and the function returned `arr`. -/
  | ok (arr : List T) : Drained T
  /-- Some forcing inside the loop diverges: the loop never completes. -/
  | bot : Drained T
  /-- Some forcing inside the loop throws. -/
  | fail : Drained T
deriving DecidableEq, Repr

/-- Source `toJavascriptArray` (lazy.ts lines 125-133):

  function toJavascriptArray<T>(xs: LazyList<T>): T[] {
    let current = xs();
    let ret: T[] = [];
    while (current !== null) {
      ret = ret.concat([current.head()]);
      current = current.tail();
    }
    return ret;
  }

Iteration `i` of the loop holds `current` = the forcing of `xs` after
descending `i` tails, forces `current.head()`, and then forces
`current.tail()`.  A head thunk with behavior `none` (diverges or errors)
stops the run without a value; we record it as `bot`.  `fuel` bounds the
number of loop iterations modelled; `none` means the bound was reached
before the loop settled (a model artifact, not a source behavior). -/
def toJavascriptArray {T : Type} (xs : LazyList T) : Nat → Option (Drained T)
  | 0 => none
  | fuel + 1 =>
    match xs 0 with
    | ForceResult.nil => some (Drained.ok [])
    | ForceResult.bot => some Drained.bot
    | ForceResult.fail => some Drained.fail
    | ForceResult.node none => some Drained.bot
    | ForceResult.node (some h) =>
      match toJavascriptArray (tail xs) fuel with
      | some (Drained.ok arr) => some (Drained.ok (h :: arr))
      | r => r

/-- Instrumented single forcing of the thunk returned by `take n xs`:
the forcing outcome paired with the number of times the thunk `xs` was
invoked during that forcing.  Reading the source body left to right:
`n === 0` short-circuits with `null` and 0 invocations of `xs`; otherwise the
`head` field evaluates `xs()` (first invocation) and takes `.head`, then the
`tail` field evaluates `xs()` again (second invocation), takes `.tail`, and
calls `take (n - 1)` on it, which builds a thunk without forcing anything.
If the first `xs()` diverges or throws, or returns `null` (so that `.head`
throws), the invocation count stops at 1. -/
def takeForce {T : Type} (n : Nat) (xs : LazyList T) : ForceResult T × Nat :=
  match n with
  | 0 => (ForceResult.nil, 0)
  | _ + 1 =>
    match xs 0 with
    | ForceResult.node h => (ForceResult.node h, 2)
    | ForceResult.nil => (ForceResult.fail, 1)
    | ForceResult.bot => (ForceResult.bot, 1)
    | ForceResult.fail => (ForceResult.fail, 1)

/-- Instrumented drain loop: the drain outcome paired with the number of
head-thunk invocations (`current.head()` calls) the loop performs. -/
def drainCount {T : Type} (xs : LazyList T) : Nat → Option (Drained T) × Nat
  | 0 => (none, 0)
  | fuel + 1 =>
    match xs 0 with
    | ForceResult.nil => (some (Drained.ok []), 0)
    | ForceResult.bot => (some Drained.bot, 0)
    | ForceResult.fail => (some Drained.fail, 0)
    | ForceResult.node none => (some Drained.bot, 1)
    | ForceResult.node (some h) =>
      match drainCount (tail xs) fuel with
      | (some (Drained.ok arr), c) => (some (Drained.ok (h :: arr)), c + 1)
      | (r, c) => (r, c + 1)

/-- A list that agrees with `xs` below depth `n` and diverges when forced at
any deeper depth: "bottom-like beyond index n". -/
def botAfter {T : Type} (n : Nat) (xs : LazyList T) : LazyList T := fun k =>
  if k < n then xs k else ForceResult.bot

/-! ## Basic lemmas -/

theorem tailN_apply {T : Type} : ∀ (k : Nat) (xs : LazyList T) (j : Nat),
    tailN k xs j = xs (j + k)
  | 0, xs, j => rfl
  | k + 1, xs, j => by
    show tailN k (tail xs) j = xs (j + (k + 1))
    rw [tailN_apply k (tail xs) j]
    show xs (j + k + 1) = xs (j + (k + 1))
    rw [Nat.add_assoc]

theorem range_apply : ∀ (k : Nat) (start : Int),
    range start k = ForceResult.node (some (start + k))
  | 0, start => by simp [range]
  | k + 1, start => by
    show range (start + 1) k = ForceResult.node (some (start + (k + 1)))
    rw [range_apply k (start + 1)]
    ring_nf

theorem tail_take {T : Type} (n : Nat) (xs : LazyList T) :
    tail (take (n + 1) xs) = take n (tail xs) := rfl

theorem drainCount_snd_node {T : Type} (xs : LazyList T) (fuel : Nat) (v : T)
    (h : xs 0 = ForceResult.node (some v)) :
    (drainCount xs (fuel + 1)).2 = (drainCount (tail xs) fuel).2 + 1 := by
  have hd : drainCount xs (fuel + 1) =
      match drainCount (tail xs) fuel with
      | (some (Drained.ok arr), c) => (some (Drained.ok (v :: arr)), c + 1)
      | (r, c) => (r, c + 1) := by
    rw [drainCount, h]
  rw [hd]
  rcases hc : drainCount (tail xs) fuel with ⟨r, c⟩
  rcases r with _ | d
  · rfl
  · rcases d with arr | _ | _ <;> rfl

theorem toJavascriptArray_mono {T : Type} :
    ∀ (fuel : Nat) (xs : LazyList T) (r : Drained T),
    toJavascriptArray xs fuel = some r →
    ∀ fuel2, fuel ≤ fuel2 → toJavascriptArray xs fuel2 = some r
  | 0, xs, r, h, _, _ => by simp [toJavascriptArray] at h
  | fuel + 1, xs, r, h, fuel2, hle => by
    obtain ⟨fuel3, rfl⟩ : ∃ m, fuel2 = m + 1 :=
      ⟨fuel2 - 1, by omega⟩
    have hle3 : fuel ≤ fuel3 := by omega
    rcases hcell : xs 0 with _ | hd | _ | _ <;>
      rw [toJavascriptArray, hcell] at h ⊢
    · exact h
    · rcases hd with _ | v
      · exact h
      · rcases hrec : toJavascriptArray (tail xs) fuel with _ | s
        · rw [hrec] at h; exact absurd h (by simp)
        · rw [toJavascriptArray_mono fuel (tail xs) s hrec fuel3 hle3]
          rw [hrec] at h
          exact h
    · exact h
    · exact h

/-! ## Claims -/

/-- Claim C1: draining the lazy list take(5, range(0)) with toJavascriptArray
terminates and yields exactly the array [0, 1, 2, 3, 4], and draining
take(3, range(100)) yields exactly [100, 101, 102].  (The drain loop runs 6
resp. 4 iterations, so that much fuel suffices.) -/
theorem drain_take_range_examples :
    toJavascriptArray (take 5 (range 0)) 6 = some (Drained.ok [0, 1, 2, 3, 4]) ∧
    toJavascriptArray (take 3 (range 100)) 4 = some (Drained.ok [100, 101, 102]) := by
  constructor <;> rfl

/-- Claim C2: for every numeric start, forcing range(start) yields a non-null
node, that node's head forces to start, and the node's tail is (behaves as)
range(start + 1). -/
theorem range_force_head_tail :
    ∀ start : Int,
    range start 0 = ForceResult.node (some start) ∧
    range start 0 ≠ ForceResult.nil ∧
    tail (range start) = range (start + 1) :=
  fun _ => ⟨rfl, by simp [range], rfl⟩

/-- Claim C3: for every numeric start and every k ≥ 0, forcing range(start)
and descending k tails yields a non-null node whose head forces to
start + k; in particular range(start) never forces to null at any depth. -/
theorem range_depth_k :
    ∀ (start : Int) (k : Nat),
    tailN k (range start) 0 = ForceResult.node (some (start + k)) ∧
    tailN k (range start) 0 ≠ ForceResult.nil := by
  intro start k
  have h : tailN k (range start) 0 = ForceResult.node (some (start + k)) := by
    rw [tailN_apply, Nat.zero_add, range_apply]
  exact ⟨h, by rw [h]; simp⟩

/-- Claim C4: forcing take(0, xs) returns null for every xs — including any
whose own forcing would diverge or throw — and xs is never invoked during
that forcing (invocation count 0: the n === 0 check short-circuits).  Every
deeper forcing of take(0, xs) also yields null. -/
theorem take_zero_shortcircuit :
    ∀ (T : Type) (xs : LazyList T),
    takeForce 0 xs = (ForceResult.nil, 0) ∧
    ∀ k, take 0 xs k = ForceResult.nil :=
  fun _ _ => ⟨rfl, fun _ => rfl⟩

/-- Claim C5, counterexample: forcing take(1, range(0)) — range(0) forces to
a non-null node — invokes xs twice, not exactly once: the body evaluates
`xs()!.head` and then `xs()!.tail`, each invoking the thunk `xs` afresh. -/
theorem take_forces_xs_not_once : (takeForce 1 (range 0)).2 ≠ 1 := by decide

/-- Claim C5, amended: for every n > 0 and LazyList xs whose forcing yields
a non-null node, forcing take(n, xs) invokes xs exactly twice (once for the
head field, once for the tail field); the result's head is xs's head thunk
passed through unforced (even a diverging head is passed intact), and the
result's tail is take(n - 1, xs's tail). -/
theorem take_force_node :
    ∀ (T : Type) (n : Nat) (xs : LazyList T) (h : Option T),
    xs 0 = ForceResult.node h →
    takeForce (n + 1) xs = (ForceResult.node h, 2) ∧
    tail (take (n + 1) xs) = take n (tail xs) := by
  intro T n xs h hxs
  refine ⟨?_, tail_take n xs⟩
  rw [takeForce, hxs]

theorem take_force_node_witness :
    range 0 0 = ForceResult.node (some 0) ∧
    takeForce 1 (range 0) = (ForceResult.node (some 0), 2) ∧
    tail (take 1 (range 0)) = take 0 (tail (range 0)) :=
  ⟨rfl, take_force_node Int 0 (range 0) (some 0) rfl⟩

/-- Claim C6: the claim asserts that draining take(n, xs) on a finite list of
length L always yields the min(n, L)-prefix, in particular that draining
take(10, toLazyList([1,2,3])) yields [1,2,3] without error.  The code instead
throws: after the three elements are produced, the drain loop forces
take(7, toLazyList([])), whose body dereferences the forced null
(`xs()!.head` with `xs()` null), a TypeError.  This theorem evaluates the
code at that failing input. -/
theorem drain_take_overflow_fails :
    toJavascriptArray (take 10 (toLazyList ([1, 2, 3] : List Int))) 4 =
      some Drained.fail ∧
    ∀ fuel, toJavascriptArray (take 10 (toLazyList ([1, 2, 3] : List Int))) fuel ≠
      some (Drained.ok [1, 2, 3]) := by
  refine ⟨rfl, ?_⟩
  intro fuel hfuel
  have h4 : toJavascriptArray (take 10 (toLazyList ([1, 2, 3] : List Int))) 4 =
      some Drained.fail := rfl
  rcases Nat.le_total fuel 4 with hle | hle
  · have := toJavascriptArray_mono fuel _ _ hfuel 4 hle
    rw [h4] at this
    exact absurd this (by simp)
  · have := toJavascriptArray_mono 4 _ _ h4 fuel hle
    rw [hfuel] at this
    exact absurd this (by simp)

/-- Claim C7: there are n > 0 and a LazyList xs forcing to null (an exhausted
list, here toLazyList([])) for which forcing take(n, xs) dereferences the
null forced value — the runtime failure behind the erased non-null assertion
on xs() — instead of yielding null. -/
theorem take_on_exhausted_fails :
    ∃ (n : Nat) (xs : LazyList Int),
      n ≠ 0 ∧ xs 0 = ForceResult.nil ∧
      take n xs 0 = ForceResult.fail ∧ take n xs 0 ≠ ForceResult.nil :=
  ⟨1, toLazyList [], by decide, rfl, rfl, by decide⟩

theorem drain_take_overflow_fails_witness :
    toJavascriptArray (take 10 (toLazyList ([1, 2, 3] : List Int))) 100 ≠
      some (Drained.ok [1, 2, 3]) :=
  drain_take_overflow_fails.2 100

theorem take_succ_zero {T : Type} (n : Nat) (xs : LazyList T) :
    take (n + 1) xs 0 =
      (match xs 0 with
       | ForceResult.node h => ForceResult.node h
       | ForceResult.nil => ForceResult.fail
       | ForceResult.bot => ForceResult.bot
       | ForceResult.fail => ForceResult.fail) := rfl

theorem take_agree_below {T : Type} :
    ∀ (n : Nat) (xs ys : LazyList T),
    (∀ k, k < n → xs k = ys k) → take n xs = take n ys
  | 0, _, _, _ => rfl
  | n + 1, xs, ys, h => by
    funext k
    cases k with
    | zero =>
      rw [take_succ_zero, take_succ_zero, h 0 (Nat.succ_pos n)]
    | succ k =>
      show take n (tail xs) k = take n (tail ys) k
      rw [take_agree_below n (tail xs) (tail ys)
        (fun j hj => h (j + 1) (by omega))]

theorem drainCount_take_le {T : Type} :
    ∀ (n : Nat) (xs : LazyList T) (fuel : Nat),
    (drainCount (take n xs) fuel).2 ≤ n
  | 0, xs, 0 => Nat.le.refl
  | 0, xs, fuel + 1 => Nat.le.refl
  | n + 1, xs, 0 => Nat.zero_le _
  | n + 1, xs, fuel + 1 => by
    rcases hcell : xs 0 with _ | hd | _ | _
    · have hT : take (n + 1) xs 0 = ForceResult.fail := by
        rw [take_succ_zero, hcell]
      rw [drainCount, hT]
      exact Nat.zero_le _
    · rcases hd with _ | v
      · have hT : take (n + 1) xs 0 = ForceResult.node none := by
          rw [take_succ_zero, hcell]
        rw [drainCount, hT]
        exact Nat.succ_le_succ (Nat.zero_le n)
      · have hT : take (n + 1) xs 0 = ForceResult.node (some v) := by
          rw [take_succ_zero, hcell]
        rw [drainCount_snd_node (take (n + 1) xs) fuel v hT, tail_take]
        have := drainCount_take_le n (tail xs) fuel
        omega
    · have hT : take (n + 1) xs 0 = ForceResult.bot := by
        rw [take_succ_zero, hcell]
      rw [drainCount, hT]
      exact Nat.zero_le _
    · have hT : take (n + 1) xs 0 = ForceResult.fail := by
        rw [take_succ_zero, hcell]
      rw [drainCount, hT]
      exact Nat.zero_le _

/-- Claim C8: draining take(n, xs) never forces more than the first n
elements of xs.  First part: take(n, xs) depends only on the first n cells of
xs, so elements beyond index n may be bottom-like without affecting the
result (the whole resulting lazy list, hence also its drain, is unchanged).
Second part: the number of head-thunk invocations performed while draining
take(n, xs) never exceeds n, for any fuel bound on the loop. -/
theorem take_bounded_forcing :
    (∀ (T : Type) (n : Nat) (xs ys : LazyList T),
      (∀ k, k < n → xs k = ys k) → take n xs = take n ys) ∧
    (∀ (T : Type) (n : Nat) (xs : LazyList T) (fuel : Nat),
      (drainCount (take n xs) fuel).2 ≤ n) :=
  ⟨fun _ => take_agree_below, fun _ => drainCount_take_le⟩

theorem take_bounded_forcing_witness :
    (∀ k, k < 5 → range 0 k = botAfter 5 (range 0) k) ∧
    take 5 (range 0) = take 5 (botAfter 5 (range 0)) ∧
    (drainCount (take 5 (range 0)) 6).2 ≤ 5 :=
  ⟨by decide,
   take_bounded_forcing.1 Int 5 (range 0) (botAfter 5 (range 0)) (by decide),
   take_bounded_forcing.2 Int 5 (range 0) 6⟩

/-- Claim C9: forcing is deterministic.  First part: forcing the same
LazyList reference at the same position is a function — any two observed
outcomes are equal (in this embedding thunks are pure, as in the source,
where every thunk is a closure over immutable data; repeated forcing
recomputes but cannot differ).  Second part: any two complete runs of the
drain loop on the same reference agree, regardless of the fuel bounds used
to model them. -/
theorem force_deterministic :
    (∀ (T : Type) (xs : LazyList T) (k : Nat) (r1 r2 : ForceResult T),
      xs k = r1 → xs k = r2 → r1 = r2) ∧
    (∀ (T : Type) (xs : LazyList T) (f1 f2 : Nat) (r1 r2 : Drained T),
      toJavascriptArray xs f1 = some r1 → toJavascriptArray xs f2 = some r2 →
      r1 = r2) := by
  constructor
  · intro T xs k r1 r2 h1 h2
    rw [h1] at h2
    exact h2
  · intro T xs f1 f2 r1 r2 h1 h2
    rcases Nat.le_total f1 f2 with hle | hle
    · have hmono := toJavascriptArray_mono f1 xs r1 h1 f2 hle
      rw [h2] at hmono
      exact (Option.some.inj hmono).symm
    · have hmono := toJavascriptArray_mono f2 xs r2 h2 f1 hle
      rw [h1] at hmono
      exact Option.some.inj hmono

theorem force_deterministic_witness :
    ForceResult.node (some (7 : Int)) = ForceResult.node (some 7) ∧
    Drained.ok ([1, 2, 3] : List Int) = Drained.ok [1, 2, 3] :=
  ⟨force_deterministic.1 Int (range 7) 0
     (ForceResult.node (some 7)) (ForceResult.node (some 7)) rfl rfl,
   force_deterministic.2 Int (toLazyList [1, 2, 3]) 4 9
     (Drained.ok [1, 2, 3]) (Drained.ok [1, 2, 3]) rfl (by decide)⟩

/-- Claim C10: converting an array to a lazy list and draining it back is
the identity: for every array xs (of length L, drained with fuel L + 1, the
number of loop iterations the run takes), toJavascriptArray(toLazyList(xs))
terminates and returns xs, element for element and in order. -/
theorem toLazyList_drain_roundtrip :
    ∀ (T : Type) (xs : List T),
    toJavascriptArray (toLazyList xs) (xs.length + 1) = some (Drained.ok xs) := by
  intro T xs
  induction xs with
  | nil => rfl
  | cons x rest ih =>
    have step : toJavascriptArray (toLazyList (x :: rest)) (rest.length + 1 + 1) =
        (match toJavascriptArray (toLazyList rest) (rest.length + 1) with
         | some (Drained.ok arr) => some (Drained.ok (x :: arr))
         | r => r) := rfl
    rw [List.length_cons, step, ih]

theorem toLazyList_drain_roundtrip_witness :
    toJavascriptArray (toLazyList ([9, 8] : List Int))
      (([9, 8] : List Int).length + 1) = some (Drained.ok [9, 8]) :=
  toLazyList_drain_roundtrip Int [9, 8]

theorem range_force_head_tail_witness :
    range 0 0 = ForceResult.node (some 0) ∧
    range 0 0 ≠ ForceResult.nil ∧
    tail (range 0) = range (0 + 1) :=
  range_force_head_tail 0

theorem range_depth_k_witness :
    tailN 3 (range 5) 0 = ForceResult.node (some (5 + ((3 : Nat) : Int))) ∧
    tailN 3 (range 5) 0 ≠ ForceResult.nil :=
  range_depth_k 5 3

theorem take_zero_shortcircuit_witness :
    takeForce 0 (botAfter 0 (range 0)) = (ForceResult.nil, 0) ∧
    take 0 (botAfter 0 (range 0)) 3 = ForceResult.nil :=
  ⟨(take_zero_shortcircuit Int (botAfter 0 (range 0))).1,
   (take_zero_shortcircuit Int (botAfter 0 (range 0))).2 3⟩

end VFP
